import Mathlib

/-!
Shallow embedding of `slack_sdk_oauth_mongodb`, a MongoDB-backed
installation store and OAuth state store for the Slack SDK.

Source files embedded:
  * `slack_sdk_oauth_mongodb/installation_store/mongodb.py`
  * `slack_sdk_oauth_mongodb/state_store/mongodb.py`

Modelling conventions:
  * A MongoDB collection is a `List` of documents; `insert_one` appends.
  * `find_one` with `sort=[("installed_at", DESCENDING)]` returns a matching
    document with maximal `installed_at` (ties cannot matter for the
    properties below; we fix the earliest-inserted maximum).
  * `delete_many` keeps exactly the documents that do not match the filter.
  * A filter value of `None` matches a document field that is null; MongoDB
    treats a missing field as null for equality comparison, and
    `{"$ne": None}` matches exactly the documents where the field is
    present and non-null.
  * Timestamps are modelled as `Int` (the Python code uses numbers only via
    `+`, `>` and sort order, so any linear order with addition works).
  * Python functions that can raise are modelled in `Except PyError`;
    a call that passes positional arguments to a keyword-only parameter
    list raises `TypeError` before the callee's body runs.
-/

/-- Errors raised by the Python runtime that the embedding must surface. -/
inductive PyError where
  | typeError : PyError
deriving DecidableEq, Repr

/-- The fields of `InstallationDocument` (the dataclass wrapping
`slack_sdk`'s `Installation`) that the store reads or writes: identity
fields, the six bot-credential fields and `installed_at`. -/
structure InstallationDocument where
  enterprise_id : Option String
  team_id : Option String
  user_id : Option String
  bot_token : Option String
  bot_id : Option String
  bot_user_id : Option String
  bot_scopes : List String
  bot_refresh_token : Option String
  bot_token_expires_at : Option Int
  installed_at : Int
deriving DecidableEq, Repr

/-- The fields of `BotDocument` (the dataclass wrapping `slack_sdk`'s
`Bot`): the same identity fields minus `user_id`, the credential fields
and `installed_at`.  Note that a `BotDocument` carries no `user_id`. -/
structure BotDocument where
  enterprise_id : Option String
  team_id : Option String
  bot_token : Option String
  bot_id : Option String
  bot_user_id : Option String
  bot_scopes : List String
  bot_refresh_token : Option String
  bot_token_expires_at : Option Int
  installed_at : Int
deriving DecidableEq, Repr

/-- `Installation.to_bot()`: the bot-credential subset of an installation. -/
def InstallationDocument.to_bot (i : InstallationDocument) : BotDocument :=
  { enterprise_id := i.enterprise_id
    team_id := i.team_id
    bot_token := i.bot_token
    bot_id := i.bot_id
    bot_user_id := i.bot_user_id
    bot_scopes := i.bot_scopes
    bot_refresh_token := i.bot_refresh_token
    bot_token_expires_at := i.bot_token_expires_at
    installed_at := i.installed_at }

/-- A document as stored by `insert_one({"client_id": ..., **asdict(doc)})`
in the `slack_installations` collection. -/
structure StoredInstallation where
  client_id : String
  data : InstallationDocument
deriving DecidableEq, Repr

/-- A document as stored in the `slack_bots` collection. -/
structure StoredBot where
  client_id : String
  data : BotDocument
deriving DecidableEq, Repr

/-- The persistent state owned by a `MongoDBInstallationStore`: its two
collections. -/
structure InstallationStoreState where
  installations : List StoredInstallation
  bots : List StoredBot
deriving DecidableEq, Repr

/-- The configuration of a `MongoDBInstallationStore` (its `client_id`;
the collections live in `InstallationStoreState`). -/
structure MongoDBInstallationStore where
  client_id : String
deriving DecidableEq, Repr

/-- `find_one(..., sort=[("installed_at", DESCENDING)])` restricted to an
already-filtered list: a document with the greatest key. -/
def findOneByLatest (key : α → Int) : List α → Option α
  | [] => none
  | d :: ds =>
    match findOneByLatest key ds with
    | none => some d
    | some r => if key r ≤ key d then some d else some r

namespace MongoDBInstallationStore

/-- `save_bot`: inserts `{"client_id": ..., **asdict(bot_document)}` into
the bots collection. -/
def save_bot (st : MongoDBInstallationStore) (s : InstallationStoreState)
    (bot : BotDocument) : InstallationStoreState :=
  { s with bots := s.bots ++ [⟨st.client_id, bot⟩] }

/-- `save`: inserts the installation document into the installations
collection, then calls `save_bot(installation.to_bot())`. -/
def save (st : MongoDBInstallationStore) (s : InstallationStoreState)
    (installation : InstallationDocument) : InstallationStoreState :=
  let s1 := { s with
    installations := s.installations ++ [⟨st.client_id, installation⟩] }
  st.save_bot s1 installation.to_bot

/-- The `team_id` value used in the `find_bot` / `find_installation`
queries: `None if team_id is None or is_enterprise_install else team_id`.
(`is_enterprise_install` is `Optional[bool]` defaulting to `False` in the
source; Python truthiness makes `None` act as `false`, so `Bool` is an
exact model.) -/
def teamFilterValue (team_id : Option String) (is_enterprise_install : Bool) :
    Option String :=
  if team_id.isNone || is_enterprise_install then none else team_id

/-- The filter `find_bot` passes to `find_one` on the bots collection. -/
def botQuery (cid : String) (enterprise_id teamFilter : Option String)
    (b : StoredBot) : Bool :=
  b.client_id == cid && b.data.enterprise_id == enterprise_id &&
    b.data.team_id == teamFilter

/-- `find_bot`: one `find_one` on the bots collection, sorted by
`installed_at` descending, projecting away `_id` and `client_id`. -/
def find_bot (st : MongoDBInstallationStore) (s : InstallationStoreState)
    (enterprise_id team_id : Option String) (is_enterprise_install : Bool) :
    Option BotDocument :=
  (findOneByLatest (fun b => b.data.installed_at)
      (s.bots.filter
        (botQuery st.client_id enterprise_id
          (teamFilterValue team_id is_enterprise_install)))).map
    (fun b => b.data)

/-- The `query` dict built by `find_installation`: `client_id`,
`enterprise_id`, the team filter, and — only when `user_id` is not
`None` — a `user_id` equality clause. -/
def instQuery (cid : String) (enterprise_id teamFilter user_id : Option String)
    (d : StoredInstallation) : Bool :=
  d.client_id == cid && d.data.enterprise_id == enterprise_id &&
    d.data.team_id == teamFilter &&
    (match user_id with
     | none => true
     | some u => d.data.user_id == some u)

/-- Overwriting the six bot-credential fields of `doc` from
`latest_bot_token_doc` (the `doc.update({...})` step). -/
def mergeBotFields (doc latest : InstallationDocument) : InstallationDocument :=
  { doc with
    bot_token := latest.bot_token
    bot_id := latest.bot_id
    bot_user_id := latest.bot_user_id
    bot_scopes := latest.bot_scopes
    bot_refresh_token := latest.bot_refresh_token
    bot_token_expires_at := latest.bot_token_expires_at }

/-- `find_installation`: a first `find_one` with `query`; if `user_id` was
supplied and a document was found, a second `find_one` with
`{**query, "bot_token": {"$ne": None}}` — note the source spreads `query`
unchanged, so the `user_id` clause stays in the second filter — and, when
that second lookup hits, the six bot-credential fields are overwritten. -/
def find_installation (st : MongoDBInstallationStore)
    (s : InstallationStoreState)
    (enterprise_id team_id user_id : Option String)
    (is_enterprise_install : Bool) : Option InstallationDocument :=
  match findOneByLatest (fun d => d.data.installed_at)
      (s.installations.filter
        (instQuery st.client_id enterprise_id
          (teamFilterValue team_id is_enterprise_install) user_id)) with
  | none => none
  | some d0 =>
    match user_id with
    | none => some d0.data
    | some _ =>
      match findOneByLatest (fun d => d.data.installed_at)
          (s.installations.filter (fun d =>
            instQuery st.client_id enterprise_id
                (teamFilterValue team_id is_enterprise_install) user_id d &&
              d.data.bot_token.isSome)) with
      | none => some d0.data
      | some lb => some (mergeBotFields d0.data lb.data)

/-- `delete_bot`: `delete_many` on the bots collection with a literal
filter on `client_id`, `enterprise_id` and `team_id`. -/
def delete_bot (st : MongoDBInstallationStore) (s : InstallationStoreState)
    (enterprise_id team_id : Option String) : InstallationStoreState :=
  { s with bots := s.bots.filter (fun b =>
      !(b.client_id == st.client_id &&
        b.data.enterprise_id == enterprise_id &&
        b.data.team_id == team_id)) }

/-- `delete_installation`: builds the same optional-`user_id` query as
`find_installation` but issues its `delete_many` against the BOTS
collection (`self.slack_bots_collection.delete_many(query)` in the
source).  A `BotDocument` has no `user_id` field, and a MongoDB equality
filter on a missing field matches only when the filter value is null; the
`user_id` clause is added only for a non-null value, so on a bot document
it evaluates to false. -/
def delete_installation (st : MongoDBInstallationStore)
    (s : InstallationStoreState)
    (enterprise_id team_id user_id : Option String) : InstallationStoreState :=
  { s with bots := s.bots.filter (fun b =>
      !(b.client_id == st.client_id &&
        b.data.enterprise_id == enterprise_id &&
        b.data.team_id == team_id &&
        (match user_id with
         | none => true
         | some _ => false))) }

/-- `async_save`: `self.save(installation)` — the only positional argument
is allowed by `save`'s signature, so the call succeeds. -/
def async_save (st : MongoDBInstallationStore) (s : InstallationStoreState)
    (installation : InstallationDocument) :
    Except PyError InstallationStoreState :=
  .ok (st.save s installation)

/-- `async_save_bot`: `self.save_bot(bot)` — succeeds. -/
def async_save_bot (st : MongoDBInstallationStore)
    (s : InstallationStoreState) (bot : BotDocument) :
    Except PyError InstallationStoreState :=
  .ok (st.save_bot s bot)

/-- `async_find_bot` calls
`self.find_bot(enterprise_id, team_id, is_enterprise_install=...)`, but
`find_bot` is declared `def find_bot(self, *, enterprise_id, team_id,
is_enterprise_install=False)`: all its parameters are keyword-only, so the
two positional arguments raise `TypeError` before the body runs. -/
def async_find_bot (_st : MongoDBInstallationStore)
    (_s : InstallationStoreState) (_enterprise_id _team_id : Option String)
    (_is_enterprise_install : Bool) : Except PyError (Option BotDocument) :=
  .error .typeError

/-- `async_find_installation` calls
`self.find_installation(enterprise_id, team_id, user_id=...,
is_enterprise_install=...)` with two positional arguments against a
keyword-only parameter list: `TypeError`. -/
def async_find_installation (_st : MongoDBInstallationStore)
    (_s : InstallationStoreState)
    (_enterprise_id _team_id _user_id : Option String)
    (_is_enterprise_install : Bool) :
    Except PyError (Option InstallationDocument) :=
  .error .typeError

/-- `async_delete_bot` calls `self.delete_bot(enterprise_id, team_id)`
with two positional arguments against a keyword-only parameter list:
`TypeError`. -/
def async_delete_bot (_st : MongoDBInstallationStore)
    (_s : InstallationStoreState) (_enterprise_id _team_id : Option String) :
    Except PyError InstallationStoreState :=
  .error .typeError

/-- `async_delete_installation` calls
`self.delete_installation(enterprise_id, team_id, user_id=...)` with two
positional arguments against a keyword-only parameter list: `TypeError`. -/
def async_delete_installation (_st : MongoDBInstallationStore)
    (_s : InstallationStoreState)
    (_enterprise_id _team_id _user_id : Option String) :
    Except PyError InstallationStoreState :=
  .error .typeError

end MongoDBInstallationStore

/-- An index specification, as passed to `create_index`: the list of field
names (all `ASCENDING` in the source). -/
abbrev IndexSpec := List String

/-- The indexes declared on the two collections of the installation
store. -/
structure InstallationIndexState where
  installations_indexes : List IndexSpec
  bots_indexes : List IndexSpec
deriving DecidableEq, Repr

/-- `create_index` is idempotent: declaring an index that already exists
leaves the collection's index list unchanged. -/
def createIndex (idxs : List IndexSpec) (spec : IndexSpec) : List IndexSpec :=
  if spec ∈ idxs then idxs else idxs ++ [spec]

namespace MongoDBInstallationStore

/-- `init`: two `create_index` calls.  Both are made on
`self.slack_installations_collection` in the source — the second one (the
four-field bot-lookup index) is NOT made on the bots collection. -/
def init (ix : InstallationIndexState) : InstallationIndexState :=
  let ix1 := { ix with installations_indexes :=
    (createIndex ix.installations_indexes
      ["client_id", "enterprise_id", "team_id", "user_id", "installed_at"]) }
  { ix1 with installations_indexes :=
    (createIndex ix1.installations_indexes
      ["client_id", "enterprise_id", "team_id", "installed_at"]) }

end MongoDBInstallationStore

/-- A document of the `oauth_states` collection:
`{"state": state, "expire_at": time() + self.expiration_seconds}`. -/
structure StateRecord where
  state : String
  expire_at : Int
deriving DecidableEq, Repr

/-- The configuration of a `MongoDBAsyncOAuthStateStore`. -/
structure MongoDBAsyncOAuthStateStore where
  expiration_seconds : Int
deriving DecidableEq, Repr

namespace MongoDBAsyncOAuthStateStore

/-- `__init__`: assigns the collection handle, `expiration_seconds` and the
logger.  It performs no validation and raises nothing, so it is total. -/
def construct (expiration_seconds : Int) :
    Except PyError MongoDBAsyncOAuthStateStore :=
  .ok ⟨expiration_seconds⟩

/-- `issue`: generates a fresh UUID string (modelled as the parameter
`state`, since the generator is nondeterministic), inserts
`{"state": state, "expire_at": now + expiration_seconds}` and returns the
token. -/
def issue (st : MongoDBAsyncOAuthStateStore) (c : List StateRecord)
    (state : String) (now : Int) : String × List StateRecord :=
  (state, c ++ [⟨state, now + st.expiration_seconds⟩])

/-- The filter of `consume`'s `delete_many`:
`{"state": state, "expire_at": {"$gt": time()}}`. -/
def consumeMatches (state : String) (now : Int) (r : StateRecord) : Bool :=
  r.state == state && decide (now < r.expire_at)

/-- `consume`: one atomic `delete_many` with the filter above; returns
`deleted_count > 0` together with the surviving collection. -/
def consume (c : List StateRecord) (state : String) (now : Int) :
    Bool × List StateRecord :=
  (decide (0 < (c.filter (consumeMatches state now)).length),
   c.filter (fun r => !consumeMatches state now r))

end MongoDBAsyncOAuthStateStore

/-- One operation of the state store, tagged with the wall-clock instant
`time()` returns during it. -/
inductive StateOp where
  | issueOp (state : String) (now : Int)
  | consumeOp (state : String) (now : Int)
deriving DecidableEq, Repr

/-- The effect of one operation on the `oauth_states` collection. -/
def StateOp.apply (st : MongoDBAsyncOAuthStateStore) (c : List StateRecord) :
    StateOp → List StateRecord
  | .issueOp s now => (st.issue c s now).2
  | .consumeOp s now => (MongoDBAsyncOAuthStateStore.consume c s now).2

/-- Running a sequence of state-store operations. -/
def runStateOps (st : MongoDBAsyncOAuthStateStore) (c : List StateRecord) :
    List StateOp → List StateRecord
  | [] => c
  | op :: ops => runStateOps st (op.apply st c) ops

/-- Running a sequence of `save` calls on the installation store. -/
def runSaves (st : MongoDBInstallationStore) (s : InstallationStoreState) :
    List InstallationDocument → InstallationStoreState
  | [] => s
  | i :: is => runSaves st (st.save s i) is

/-! ### Concrete example data, shared by several evaluations below -/

/-- A store configured with `client_id = "client-1"`. -/
def exStore : MongoDBInstallationStore := ⟨"client-1"⟩

/-- U1: `user_id="u1"`, `installed_at=1`, `bot_token=null`, in scope
(`enterprise_id="E1"`, `team_id="T1"`). -/
def exU1 : InstallationDocument :=
  { enterprise_id := some "E1", team_id := some "T1", user_id := some "u1",
    bot_token := none, bot_id := none, bot_user_id := none, bot_scopes := [],
    bot_refresh_token := none, bot_token_expires_at := none, installed_at := 1 }

/-- U2: `user_id="u2"`, `installed_at=2`, `bot_token="xoxb-2"`, same scope
as U1. -/
def exU2 : InstallationDocument :=
  { exU1 with
    user_id := some "u2", bot_token := some "xoxb-2",
    bot_id := some "B2", bot_user_id := some "W2", installed_at := 2 }

/-- The store state after `save(U1); save(U2)` from an empty store. -/
def exState12 : InstallationStoreState :=
  exStore.save (exStore.save ⟨[], []⟩ exU1) exU2

/-! ### Facts about `find_one` with a descending sort -/

theorem findOneByLatest_eq_none_iff {α : Type} {key : α → Int} {l : List α} :
    findOneByLatest key l = none ↔ l = [] := by
  cases l with
  | nil => simp [findOneByLatest]
  | cons d ds =>
    simp only [findOneByLatest]
    cases findOneByLatest key ds with
    | none => simp
    | some x =>
      simp only []
      split <;> simp

theorem findOneByLatest_mem {α : Type} {key : α → Int} {l : List α} {r : α}
    (h : findOneByLatest key l = some r) : r ∈ l := by
  induction l generalizing r with
  | nil => simp [findOneByLatest] at h
  | cons d ds ih =>
    simp only [findOneByLatest] at h
    split at h
    · cases h
      exact List.mem_cons_self d ds
    · rename_i m hrec
      split at h
      · cases h
        exact List.mem_cons_self d ds
      · cases h
        exact List.mem_cons_of_mem d (ih hrec)

theorem findOneByLatest_ge {α : Type} {key : α → Int} {l : List α} {r : α}
    (h : findOneByLatest key l = some r) : ∀ x ∈ l, key x ≤ key r := by
  induction l generalizing r with
  | nil => simp [findOneByLatest] at h
  | cons d ds ih =>
    intro x hx
    simp only [findOneByLatest] at h
    split at h
    · rename_i hrec
      cases h
      rcases List.mem_cons.mp hx with rfl | hx2
      · exact le_refl _
      · exact absurd (findOneByLatest_eq_none_iff.mp hrec ▸ hx2) (List.not_mem_nil x)
    · rename_i m hrec
      split at h
      · rename_i hk
        cases h
        rcases List.mem_cons.mp hx with rfl | hx2
        · exact le_refl _
        · exact le_trans (ih hrec x hx2) hk
      · rename_i hk
        cases h
        rcases List.mem_cons.mp hx with rfl | hx2
        · exact le_of_not_le hk
        · exact ih hrec x hx2

theorem findOneByLatest_isSome {α : Type} {key : α → Int} {l : List α}
    (h : l ≠ []) : ∃ r, findOneByLatest key l = some r := by
  cases hf : findOneByLatest key l with
  | none => exact absurd (findOneByLatest_eq_none_iff.mp hf) h
  | some r => exact ⟨r, rfl⟩

/-! ### Claim theorems -/

/-- C1: the spec's bot-credential merge scenario fails on the code.  With
U1 (`user_id="u1"`, `installed_at=1`, `bot_token=null`) and U2
(`user_id="u2"`, `installed_at=2`, `bot_token="xoxb-2"`) saved in the same
scope, `find_installation(..., user_id="u1")` returns U1 unchanged — its
`bot_token` stays null instead of being overwritten with `"xoxb-2"`,
because the latest-bot-token lookup spreads `query` unchanged and so still
filters on `user_id = "u1"`. -/
theorem C1_merge_keeps_user_filter :
    exStore.find_installation exState12 (some "E1") (some "T1") (some "u1")
        false = some exU1 ∧
      exU1.user_id = some "u1" ∧ exU1.bot_token = none ∧
      exU2.bot_token = some "xoxb-2" := by
  decide

/-- C2: the async entry points are not equivalent to the blocking ones.
`async_find_bot`, `async_find_installation`, `async_delete_bot` and
`async_delete_installation` pass positional arguments to keyword-only
parameter lists and therefore raise `TypeError` on every call, while the
blocking `find_bot` succeeds on the same store state and inputs. -/
theorem C2_async_wrappers_raise :
    exStore.async_find_bot exState12 (some "E1") (some "T1") false =
        Except.error PyError.typeError ∧
      exStore.async_find_installation exState12 (some "E1") (some "T1") none
        false = Except.error PyError.typeError ∧
      exStore.async_delete_bot exState12 (some "E1") (some "T1") =
        Except.error PyError.typeError ∧
      exStore.async_delete_installation exState12 (some "E1") (some "T1")
        none = Except.error PyError.typeError ∧
      (exStore.find_bot exState12 (some "E1") (some "T1") false).isSome =
        true :=
  ⟨rfl, rfl, rfl, rfl, by decide⟩

/-- C3: `init` does not index the bots collection.  From a fresh store it
creates BOTH the five-field installations index and the four-field
bot-lookup index on the installations collection, and no index at all on
the bots collection; repeating `init` is idempotent. -/
theorem C3_init_indexes_installations_only :
    MongoDBInstallationStore.init ⟨[], []⟩ =
        ⟨[["client_id", "enterprise_id", "team_id", "user_id",
           "installed_at"],
          ["client_id", "enterprise_id", "team_id", "installed_at"]], []⟩ ∧
      (MongoDBInstallationStore.init ⟨[], []⟩).bots_indexes = [] ∧
      MongoDBInstallationStore.init
          (MongoDBInstallationStore.init ⟨[], []⟩) =
        MongoDBInstallationStore.init ⟨[], []⟩ := by
  decide

/-- C9 counterexample: constructing the state store with the non-positive
`expiration_seconds = -1` does not fail fast — `__init__` performs no
validation and returns the store normally. -/
theorem C9_construct_accepts_nonpositive :
    MongoDBAsyncOAuthStateStore.construct (-1) = Except.ok ⟨-1⟩ := rfl

/-- C9 (amended): construction never validates `expiration_seconds` — it
succeeds for every value — and a store configured with a non-positive
value silently issues tokens that are already expired at issuance: a token
issued at time `now` into a collection holding no record with its state
can never be consumed at any time `t ≥ now`. -/
theorem C9_no_validation_and_tokens_born_expired (e : Int)
    (c : List StateRecord) (state : String) (now t : Int) (he : e ≤ 0)
    (hfresh : ∀ r ∈ c, r.state ≠ state) (ht : now ≤ t) :
    MongoDBAsyncOAuthStateStore.construct e = Except.ok ⟨e⟩ ∧
      (MongoDBAsyncOAuthStateStore.consume
          (MongoDBAsyncOAuthStateStore.issue ⟨e⟩ c state now).2 state t).1 =
        false := by
  refine ⟨rfl, ?_⟩
  have h1 : c.filter (MongoDBAsyncOAuthStateStore.consumeMatches state t) =
      [] := by
    refine List.filter_eq_nil_iff.mpr fun r hr => ?_
    simp [MongoDBAsyncOAuthStateStore.consumeMatches, hfresh r hr]
  simp only [MongoDBAsyncOAuthStateStore.consume,
    MongoDBAsyncOAuthStateStore.issue, List.filter_append, h1,
    List.nil_append, decide_eq_false_iff_not]
  simp [MongoDBAsyncOAuthStateStore.consumeMatches]
  omega

/-- C9 witness: the amended statement at `expiration_seconds = 0`, an
empty collection and issuance/consumption time 0. -/
theorem C9_no_validation_witness :
    MongoDBAsyncOAuthStateStore.construct 0 = Except.ok ⟨0⟩ ∧
      (MongoDBAsyncOAuthStateStore.consume
          (MongoDBAsyncOAuthStateStore.issue ⟨0⟩ [] "s" 0).2 "s" 0).1 =
        false :=
  C9_no_validation_and_tokens_born_expired 0 [] "s" 0 0 (by decide)
    (by simp) (by decide)

/-- C10: for every store state and every non-null `user_id`,
`delete_installation` removes nothing and leaves the whole store
unchanged: its `delete_many` runs against the bots collection with a
`user_id` equality clause that no bot document can satisfy, and the
installations collection is never touched. -/
theorem C10_delete_installation_removes_nothing
    (st : MongoDBInstallationStore) (s : InstallationStoreState)
    (e t : Option String) (u : String) :
    st.delete_installation s e t (some u) = s := by
  cases s with
  | mk installations bots =>
    simp [MongoDBInstallationStore.delete_installation]

/-- C4: `consume(state)` deletes exactly the records matching
`state = s ∧ expire_at > now` and returns true iff at least one such
record existed; a state that was never issued, whose record has
`expire_at ≤ now` (even if still physically present), or that was already
consumed therefore yields false. -/
theorem C4_consume_true_iff_deleted (c : List StateRecord) (s : String)
    (t : Int) :
    ((MongoDBAsyncOAuthStateStore.consume c s t).1 = true ↔
      ∃ r ∈ c, r.state = s ∧ t < r.expire_at) ∧
    ∀ r, (r ∈ (MongoDBAsyncOAuthStateStore.consume c s t).2 ↔
      r ∈ c ∧ ¬(r.state = s ∧ t < r.expire_at)) := by
  constructor
  · simp only [MongoDBAsyncOAuthStateStore.consume, decide_eq_true_eq,
      List.length_pos_iff_ne_nil, ne_eq, List.filter_eq_nil_iff,
      MongoDBAsyncOAuthStateStore.consumeMatches, Bool.and_eq_true,
      beq_iff_eq, not_forall]
    push_neg
    constructor
    · rintro ⟨r, hr, hmatch⟩
      exact ⟨r, hr, by simpa using hmatch⟩
    · rintro ⟨r, hr, h1, h2⟩
      exact ⟨r, hr, by simp [h1, h2]⟩
  · intro r
    simp only [MongoDBAsyncOAuthStateStore.consume, List.mem_filter,
      MongoDBAsyncOAuthStateStore.consumeMatches, Bool.not_eq_true',
      Bool.and_eq_false_iff, beq_eq_false_iff_ne, ne_eq,
      decide_eq_false_iff_not, not_lt, not_and]
    tauto

/-- C8: `delete_bot(enterprise_id, team_id)` removes exactly the bot
records literally matching the store's `client_id` and the two arguments
(no widening of an absent `team_id`), leaves the installations collection
unchanged, and in particular keeps every org-wide (`team_id` absent) bot
record when a non-absent `team_id` is given. -/
theorem C8_delete_bot_scope_literal (st : MongoDBInstallationStore)
    (s : InstallationStoreState) (e t : Option String) :
    (st.delete_bot s e t).installations = s.installations ∧
    (∀ b, b ∈ (st.delete_bot s e t).bots ↔
      b ∈ s.bots ∧ ¬(b.client_id = st.client_id ∧
        b.data.enterprise_id = e ∧ b.data.team_id = t)) ∧
    (∀ b ∈ s.bots, b.data.team_id = none → t ≠ none →
      b ∈ (st.delete_bot s e t).bots) := by
  have hmem : ∀ b, b ∈ (st.delete_bot s e t).bots ↔
      b ∈ s.bots ∧ ¬(b.client_id = st.client_id ∧
        b.data.enterprise_id = e ∧ b.data.team_id = t) := by
    intro b
    simp only [MongoDBInstallationStore.delete_bot, List.mem_filter,
      Bool.not_eq_true', Bool.and_eq_false_iff, beq_eq_false_iff_ne, ne_eq,
      not_and]
    tauto
  refine ⟨rfl, hmem, fun b hb h1 h2 => ?_⟩
  refine (hmem b).mpr ⟨hb, fun hc => ?_⟩
  exact h2 (hc.2.2 ▸ h1 ▸ rfl)

/-- Any bot record returned by `find_bot` carries exactly the queried
(effective) `team_id` filter value. -/
theorem find_bot_team_id (st : MongoDBInstallationStore)
    (s : InstallationStoreState) (e tid : Option String) (ie : Bool)
    {b : BotDocument} (h : st.find_bot s e tid ie = some b) :
    b.team_id = MongoDBInstallationStore.teamFilterValue tid ie := by
  simp only [MongoDBInstallationStore.find_bot, Option.map_eq_some'] at h
  rcases h with ⟨sb, hfind, rfl⟩
  have hmem := findOneByLatest_mem hfind
  rw [List.mem_filter] at hmem
  have hq := hmem.2
  simp only [MongoDBInstallationStore.botQuery, Bool.and_eq_true,
    beq_iff_eq] at hq
  exact hq.2

/-- Any installation returned by `find_installation` carries exactly the
queried (effective) `team_id` filter value (the bot-credential merge never
touches `team_id`). -/
theorem find_installation_team_id (st : MongoDBInstallationStore)
    (s : InstallationStoreState) (e tid uid : Option String) (ie : Bool)
    {i : InstallationDocument}
    (h : st.find_installation s e tid uid ie = some i) :
    i.team_id = MongoDBInstallationStore.teamFilterValue tid ie := by
  simp only [MongoDBInstallationStore.find_installation] at h
  split at h
  · simp at h
  · rename_i d0 hfind
    have hmem := findOneByLatest_mem hfind
    rw [List.mem_filter] at hmem
    have hq := hmem.2
    simp only [MongoDBInstallationStore.instQuery, Bool.and_eq_true,
      beq_iff_eq] at hq
    split at h
    · cases h
      exact hq.1.2
    · split at h
      · cases h
        exact hq.1.2
      · cases h
        simpa [MongoDBInstallationStore.mergeBotFields] using hq.1.2

/-- C6: the scope rule of both finders.  When `is_enterprise_install` is
true, or `team_id` is absent, any record they return has `team_id` absent
— so an installation saved with a non-absent `team_id` is never returned
in that mode, whatever `team_id` argument is passed; otherwise any record
they return carries exactly the queried `team_id`. -/
theorem C6_scope_matching (st : MongoDBInstallationStore)
    (s : InstallationStoreState) (e tid uid : Option String) (ie : Bool) :
    ((ie = true ∨ tid = none) →
      (∀ b, st.find_bot s e tid ie = some b → b.team_id = none) ∧
      (∀ i, st.find_installation s e tid uid ie = some i →
        i.team_id = none)) ∧
    ((ie = false ∧ tid ≠ none) →
      (∀ b, st.find_bot s e tid ie = some b → b.team_id = tid) ∧
      (∀ i, st.find_installation s e tid uid ie = some i →
        i.team_id = tid)) := by
  have htf1 : (ie = true ∨ tid = none) →
      MongoDBInstallationStore.teamFilterValue tid ie = none := by
    rintro (rfl | rfl) <;>
      simp [MongoDBInstallationStore.teamFilterValue]
  have htf2 : ie = false ∧ tid ≠ none →
      MongoDBInstallationStore.teamFilterValue tid ie = tid := by
    rintro ⟨rfl, hne⟩
    cases tid with
    | none => exact absurd rfl hne
    | some x => simp [MongoDBInstallationStore.teamFilterValue]
  refine ⟨fun hc => ⟨fun b hb => ?_, fun i hi => ?_⟩,
    fun hc => ⟨fun b hb => ?_, fun i hi => ?_⟩⟩
  · rw [find_bot_team_id st s e tid ie hb, htf1 hc]
  · rw [find_installation_team_id st s e tid uid ie hi, htf1 hc]
  · rw [find_bot_team_id st s e tid ie hb, htf2 hc]
  · rw [find_installation_team_id st s e tid uid ie hi, htf2 hc]

/-- "No record of token `s` in `c` is still consumable after instant `t`":
the invariant behind single-use consumption. -/
def noLiveToken (s : String) (t : Int) (c : List StateRecord) : Prop :=
  ∀ r ∈ c, r.state = s → r.expire_at ≤ t

/-- After any `consume(s)` at instant `t`, no record of `s` that survives
is consumable at or after `t`. -/
theorem noLiveToken_after_consume (c : List StateRecord) (s : String)
    (t : Int) : noLiveToken s t (MongoDBAsyncOAuthStateStore.consume c s t).2 := by
  intro r hr hs
  simp only [MongoDBAsyncOAuthStateStore.consume,
    MongoDBAsyncOAuthStateStore.consumeMatches, List.mem_filter,
    Bool.not_eq_true', Bool.and_eq_false_iff, beq_eq_false_iff_ne, ne_eq,
    decide_eq_false_iff_not, not_lt] at hr
  rcases hr.2 with hne | hle
  · exact absurd hs hne
  · exact hle

/-- A state-store operation that does not issue token `s` preserves the
invariant. -/
theorem noLiveToken_step (st : MongoDBAsyncOAuthStateStore) (s : String)
    (t : Int) (c : List StateRecord) (op : StateOp)
    (hop : ∀ now, op ≠ StateOp.issueOp s now) (hinv : noLiveToken s t c) :
    noLiveToken s t (op.apply st c) := by
  cases op with
  | issueOp s2 now =>
    intro r hr hs
    simp only [StateOp.apply, MongoDBAsyncOAuthStateStore.issue,
      List.mem_append, List.mem_singleton] at hr
    rcases hr with hr | rfl
    · exact hinv r hr hs
    · exact absurd (hs ▸ rfl : StateOp.issueOp s2 now = StateOp.issueOp s now)
        (hop now)
  | consumeOp s2 now =>
    intro r hr hs
    simp only [StateOp.apply, MongoDBAsyncOAuthStateStore.consume,
      List.mem_filter] at hr
    exact hinv r hr.1 hs

/-- Running any operations that never issue token `s` preserves the
invariant. -/
theorem noLiveToken_runStateOps (st : MongoDBAsyncOAuthStateStore)
    (s : String) (t : Int) (c : List StateRecord) (ops : List StateOp)
    (hops : ∀ now, StateOp.issueOp s now ∉ ops) (hinv : noLiveToken s t c) :
    noLiveToken s t (runStateOps st c ops) := by
  induction ops generalizing c with
  | nil => exact hinv
  | cons op rest ih =>
    refine ih (op.apply st c) (fun now hmem => hops now (List.mem_cons_of_mem op hmem)) ?_
    refine noLiveToken_step st s t c op (fun now heq => ?_) hinv
    exact hops now (heq ▸ List.mem_cons_self op rest)

/-- With the invariant, `consume` of `s` at any instant `t2 ≥ t` fails. -/
theorem consume_false_of_noLiveToken (c : List StateRecord) (s : String)
    (t t2 : Int) (ht : t ≤ t2) (hinv : noLiveToken s t c) :
    (MongoDBAsyncOAuthStateStore.consume c s t2).1 = false := by
  simp only [MongoDBAsyncOAuthStateStore.consume, decide_eq_false_iff_not,
    not_lt, Nat.le_zero, List.length_eq_zero, List.filter_eq_nil_iff]
  intro r hr
  simp only [MongoDBAsyncOAuthStateStore.consumeMatches, Bool.and_eq_true,
    beq_iff_eq, decide_eq_true_eq, not_and]
  intro hs hlt
  exact absurd hlt (not_lt.mpr (le_trans (hinv r hr hs) ht))

/-- C5: consumption is single-use.  Once a `consume(s)` call at instant
`t` has returned true, then after any further operations — at any
instants, provided none of them issues the very same token string again
(the issuer draws fresh UUIDs) — a later `consume(s)` at any instant
`t2 ≥ t` returns false, even before the token's original expiry. -/
theorem C5_consume_at_most_once (st : MongoDBAsyncOAuthStateStore)
    (c : List StateRecord) (s : String) (t : Int) (ops : List StateOp)
    (t2 : Int)
    (_hfirst : (MongoDBAsyncOAuthStateStore.consume c s t).1 = true)
    (hops : ∀ now, StateOp.issueOp s now ∉ ops) (ht : t ≤ t2) :
    (MongoDBAsyncOAuthStateStore.consume
        (runStateOps st (MongoDBAsyncOAuthStateStore.consume c s t).2 ops)
        s t2).1 = false :=
  consume_false_of_noLiveToken _ s t t2 ht
    (noLiveToken_runStateOps st s t _ ops hops
      (noLiveToken_after_consume c s t))

/-- C5 witness: the token `"tok"` (expiring at 10) is consumed at instant
5; after an unrelated issue and consume, consuming `"tok"` again at
instant 6 — still before its original expiry — returns false. -/
theorem C5_consume_at_most_once_witness :
    (MongoDBAsyncOAuthStateStore.consume
        (runStateOps ⟨60⟩
          (MongoDBAsyncOAuthStateStore.consume [⟨"tok", 10⟩] "tok" 5).2
          [StateOp.issueOp "other" 5, StateOp.consumeOp "other" 6])
        "tok" 6).1 = false :=
  C5_consume_at_most_once ⟨60⟩ [⟨"tok", 10⟩] "tok" 5
    [StateOp.issueOp "other" 5, StateOp.consumeOp "other" 6] 6 (by decide)
    (by intro now; simp) (by decide)

/-- The installations collection after a sequence of `save` calls: each
save appends its document tagged with the store's `client_id` (and also
appends to the bots collection, which is untouched here). -/
theorem runSaves_installations (st : MongoDBInstallationStore)
    (s : InstallationStoreState) (is : List InstallationDocument) :
    (runSaves st s is).installations =
      s.installations ++ is.map (fun i => ⟨st.client_id, i⟩) := by
  induction is generalizing s with
  | nil => simp [runSaves]
  | cons i rest ih =>
    rw [runSaves, ih]
    simp [MongoDBInstallationStore.save, MongoDBInstallationStore.save_bot]

/-- In a list whose keys are strictly increasing along it, elements are
determined by their keys. -/
theorem pairwise_lt_key_inj {α : Type} {key : α → Int} {l : List α}
    (h : l.Pairwise fun a b => key a < key b) {a b : α} (ha : a ∈ l)
    (hb : b ∈ l) (hk : key a = key b) : a = b := by
  induction l with
  | nil => cases ha
  | cons x xs ih =>
    rw [List.pairwise_cons] at h
    rcases List.mem_cons.mp ha with rfl | ha2 <;>
      rcases List.mem_cons.mp hb with rfl | hb2
    · rfl
    · exact absurd hk (ne_of_lt (h.1 b hb2))
    · exact absurd hk.symm (ne_of_lt (h.1 a ha2))
    · exact ih h.2 ha2 hb2

/-- C7: for any sequence of `save` calls with strictly increasing
`installed_at`, `find_installation` with matching scope and no `user_id`
returns the unique matching record with the greatest `installed_at` — the
winner is decided solely by `installed_at`: every other matching save is
strictly older. -/
theorem C7_latest_installed_at_wins (st : MongoDBInstallationStore)
    (insts : List InstallationDocument) (e tid : Option String) (ie : Bool)
    (hmono : insts.Pairwise fun a b => a.installed_at < b.installed_at)
    (hex : ∃ i ∈ insts,
      MongoDBInstallationStore.instQuery st.client_id e
        (MongoDBInstallationStore.teamFilterValue tid ie) none
        ⟨st.client_id, i⟩ = true) :
    ∃ r, st.find_installation (runSaves st ⟨[], []⟩ insts) e tid none ie =
        some r ∧
      r ∈ insts ∧
      MongoDBInstallationStore.instQuery st.client_id e
        (MongoDBInstallationStore.teamFilterValue tid ie) none
        ⟨st.client_id, r⟩ = true ∧
      ∀ i ∈ insts,
        MongoDBInstallationStore.instQuery st.client_id e
          (MongoDBInstallationStore.teamFilterValue tid ie) none
          ⟨st.client_id, i⟩ = true →
        i ≠ r → i.installed_at < r.installed_at := by
  have hinst : (runSaves st ⟨[], []⟩ insts).installations =
      insts.map (fun i => ⟨st.client_id, i⟩) := by
    simpa using runSaves_installations st ⟨[], []⟩ insts
  have hfil : (runSaves st ⟨[], []⟩ insts).installations.filter
      (MongoDBInstallationStore.instQuery st.client_id e
        (MongoDBInstallationStore.teamFilterValue tid ie) none) =
      (insts.filter fun i =>
        MongoDBInstallationStore.instQuery st.client_id e
          (MongoDBInstallationStore.teamFilterValue tid ie) none
          ⟨st.client_id, i⟩).map (fun i => ⟨st.client_id, i⟩) := by
    rw [hinst, List.filter_map]
    rfl
  have hne : (insts.filter fun i =>
      MongoDBInstallationStore.instQuery st.client_id e
        (MongoDBInstallationStore.teamFilterValue tid ie) none
        ⟨st.client_id, i⟩) ≠ [] := by
    rcases hex with ⟨i, hi, hq⟩
    exact List.ne_nil_of_mem (List.mem_filter.mpr ⟨hi, hq⟩)
  have hmapne : (runSaves st ⟨[], []⟩ insts).installations.filter
      (MongoDBInstallationStore.instQuery st.client_id e
        (MongoDBInstallationStore.teamFilterValue tid ie) none) ≠ [] := by
    rw [hfil]
    simpa using hne
  rcases @findOneByLatest_isSome StoredInstallation
    (fun d => d.data.installed_at) _ hmapne with ⟨d0, hd0⟩
  have hd0mem := findOneByLatest_mem hd0
  rw [hfil] at hd0mem
  rcases List.mem_map.mp hd0mem with ⟨r, hrfil, rfl⟩
  have hrmem := List.mem_filter.mp hrfil
  refine ⟨r, ?_, hrmem.1, hrmem.2, ?_⟩
  · simp only [MongoDBInstallationStore.find_installation, hd0]
  · intro i hi hq hne2
    have hle : i.installed_at ≤ r.installed_at := by
      have := findOneByLatest_ge hd0 ⟨st.client_id, i⟩ ?_
      · exact this
      · rw [hfil]
        exact List.mem_map.mpr ⟨i, List.mem_filter.mpr ⟨hi, hq⟩, rfl⟩
    rcases lt_or_eq_of_le hle with hlt | heq
    · exact hlt
    · exact absurd (pairwise_lt_key_inj hmono hi hrmem.1 heq) hne2

/-- C7 witness: saving U1 then U2 (installed at 1 and 2) and querying
their common scope with no `user_id` yields the younger record U2, and U1
— the only other matching save — is strictly older. -/
theorem C7_latest_installed_at_wins_witness :
    ∃ r, exStore.find_installation (runSaves exStore ⟨[], []⟩ [exU1, exU2])
        (some "E1") (some "T1") none false = some r ∧
      r ∈ [exU1, exU2] ∧
      MongoDBInstallationStore.instQuery exStore.client_id (some "E1")
        (MongoDBInstallationStore.teamFilterValue (some "T1") false) none
        ⟨exStore.client_id, r⟩ = true ∧
      ∀ i ∈ [exU1, exU2],
        MongoDBInstallationStore.instQuery exStore.client_id (some "E1")
          (MongoDBInstallationStore.teamFilterValue (some "T1") false) none
          ⟨exStore.client_id, i⟩ = true →
        i ≠ r → i.installed_at < r.installed_at :=
  C7_latest_installed_at_wins exStore [exU1, exU2] (some "E1") (some "T1")
    false (by decide) (by decide)
